import Mathlib

/-
Shallow embedding of the report-building pipeline of `nba_core.py`:
team resolution, head-to-head matching across seasons, team metric
summaries with superiority flags, and the player line / multi-stat
report builders.  Pandas DataFrames are modelled as Lean lists of
structures; the upstream statistics API is modelled as an explicit
database function passed as a parameter; Python floats are modelled
as rationals; machine failure modes (network errors, missing rows)
are modelled with Option; a raised ValueError is modelled with Except.
-/

/-- Python substring test: `strContains hay pat` models the Python
expression `pat in hay` on strings. -/
def strContains (hay pat : String) : Bool :=
  decide (pat.toList <:+: hay.toList)

/-- Whitespace characters removed by Python `str.strip()` (without
arguments): space, tab, newline, carriage return, vertical tab, form feed. -/
def isPySpace (c : Char) : Bool :=
  c == ' ' || c == '\t' || c == '\n' || c == '\r' || c == '\x0b' || c == '\x0c'

/-- Python `str.strip()`: drop leading and trailing whitespace. -/
def pyStrip (s : String) : String :=
  String.mk (((s.toList.dropWhile isPySpace).reverse.dropWhile isPySpace).reverse)

/-- ASCII lowering of one character, as Python `str.lower()` acts on the
ASCII range (the static catalog data is ASCII). -/
def pyLowerChar (c : Char) : Char :=
  if 'A' ≤ c ∧ c ≤ 'Z' then Char.ofNat (c.toNat + 32) else c

/-- Python `str.lower()` restricted to the ASCII range. -/
def pyLower (s : String) : String :=
  String.mk (s.toList.map pyLowerChar)

/-- One entry of the static team catalog (`teams_static.get_teams()`),
with the fields read by `find_team_by_abbr`. -/
structure Team where
  id : ℕ
  abbreviation : String
  full_name : String
  nickname : String
  city : String
deriving DecidableEq, Repr

/-- The per-team condition tested inside the loop of `find_team_by_abbr`
(lines 97-104 of nba_core.py): the six checks are disjuncts evaluated on
one candidate team. -/
def teamMatches (text : String) (t : Team) : Bool :=
  let abbr := pyLower t.abbreviation
  let full := pyLower t.full_name
  let nickname := pyLower t.nickname
  let city := pyLower t.city
  text == abbr || text == full || text == nickname || text == city ||
    strContains full text || strContains nickname text

/-- Embedding of `find_team_by_abbr` (nba_core.py lines 76-107): an empty
search string yields no team; otherwise the stripped, lowered text is
tested against each catalog entry in catalog order and the first entry
satisfying any of the six conditions is returned. -/
def find_team_by_abbr (searchText : String) (teams : List Team) : Option Team :=
  if searchText = "" then none
  else teams.find? (teamMatches (pyLower (pyStrip searchText)))

/-- Modelled from the claim wording of C2 (spec section 4.1), for
comparison with `find_team_by_abbr`: resolution that tries the match
conditions in priority order across the whole catalog - exact
abbreviation, then exact full name, then exact nickname, then exact
city, then substring-of-full-name, then substring-of-nickname - and
returns the first team matching under that ordering. -/
def findTeamByPriority (searchText : String) (teams : List Team) : Option Team :=
  if searchText = "" then none
  else
    let text := pyLower (pyStrip searchText)
    (teams.find? (fun t => pyLower t.abbreviation == text)).orElse (fun _ =>
      (teams.find? (fun t => pyLower t.full_name == text)).orElse (fun _ =>
        (teams.find? (fun t => pyLower t.nickname == text)).orElse (fun _ =>
          (teams.find? (fun t => pyLower t.city == text)).orElse (fun _ =>
            (teams.find? (fun t => strContains (pyLower t.full_name) text)).orElse (fun _ =>
              teams.find? (fun t => strContains (pyLower t.nickname) text))))))

/-- A two-team catalog on which catalog-order and condition-priority
resolution disagree for the query "BRA". -/
def teamAlpha : Team :=
  ⟨1, "AAA", "Alpha Bravos", "Bravos", "Alphaville"⟩

/-- Second team of the small catalog: its abbreviation is exactly "BRA". -/
def teamBravo : Team :=
  ⟨2, "BRA", "Bravo Lions", "Lions", "Bravotown"⟩

/-- The small catalog used as concrete input for the C2 counterexample. -/
def smallCatalog : List Team :=
  [teamAlpha, teamBravo]

/-- One row of a team season game log (`TeamGameLog`), with the columns
read by `get_last_h2h_games`: game identifier, date (a point on the
integer time line), the team's scored points, and the matchup notation
string such as "BOS vs. LAL" or "BOS @ LAL". -/
structure LogRow where
  gameId : ℕ
  gameDate : ℤ
  pts : ℚ
  matchup : String
deriving DecidableEq, Repr

/-- One oriented head-to-head game as produced by `get_last_h2h_games`:
date, home and away team abbreviations, and the points of each side. -/
structure H2HRow where
  gameDate : ℤ
  homeTeam : String
  awayTeam : String
  ptsHome : ℚ
  ptsAway : ℚ
deriving DecidableEq, Repr

/-- The upstream statistics API for team logs, as a total database:
a team id and a season starting year give that season's game log list
(an empty list models an empty or failed fetch, which the source skips). -/
def TeamDb : Type :=
  ℕ → ℤ → List LogRow

/-- Sorting a season log by date descending (`sort_values("GAME_DATE",
ascending=False)` in `get_team_season_games`). -/
def sortLogsByDateDesc (l : List LogRow) : List LogRow :=
  List.insertionSort (fun x y => y.gameDate ≤ x.gameDate) l

/-- Embedding of `get_team_season_games`: the full season log of a team,
ordered by date descending. -/
def get_team_season_games (db : TeamDb) (teamId : ℕ) (seasonYear : ℤ) : List LogRow :=
  sortLogsByDateDesc (db teamId seasonYear)

/-- Embedding of the pandas inner merge on `["GAME_ID", "GAME_DATE"]` in
`get_last_h2h_games`: every row of the left log is paired with every row
of the right log carrying the same game id and date, in left-log order. -/
def joinLogs (l r : List LogRow) : List (LogRow × LogRow) :=
  l.flatMap (fun a =>
    (r.filter (fun b => b.gameId == a.gameId && b.gameDate == a.gameDate)).map (fun b => (a, b)))

/-- Embedding of the per-merged-row orientation of `get_last_h2h_games`
(lines 206-238): the merged row is viewed from the first ("home_team")
argument's log; "vs" in its matchup notation means that team was at home,
"@" means it was away, and otherwise a fallback attributes it as home. -/
def orientRow (homeAbbr awayAbbr : String) (pr : LogRow × LogRow) : H2HRow :=
  if strContains pr.1.matchup "vs" then
    ⟨pr.1.gameDate, homeAbbr, awayAbbr, pr.1.pts, pr.2.pts⟩
  else if strContains pr.1.matchup "@" then
    ⟨pr.1.gameDate, awayAbbr, homeAbbr, pr.2.pts, pr.1.pts⟩
  else
    ⟨pr.1.gameDate, homeAbbr, awayAbbr, pr.1.pts, pr.2.pts⟩

/-- The seasons visited by the lookback loop of `get_last_h2h_games`:
`range(start_season, start_season - max_seasons_back, -1)` together with
the `if season_year < 2000: break` floor. -/
def seasonsScanned (startSeason : ℤ) (maxSeasonsBack : ℕ) : List ℤ :=
  ((List.range maxSeasonsBack).map (fun i => startSeason - (i : ℤ))).takeWhile
    (fun y => decide (2000 ≤ y))

/-- The oriented head-to-head rows contributed by one season in
`get_last_h2h_games`: each team's season log filtered to matchups
mentioning the other team's abbreviation, inner-merged on game id and
date, then oriented.  A season with no matched games contributes the
empty list (the source's `continue` branches). -/
def h2hSeasonRows (home away : Team) (db : TeamDb) (y : ℤ) : List H2HRow :=
  let dfHome := get_team_season_games db home.id y
  let dfAway := get_team_season_games db away.id y
  let dfHomeH2H := dfHome.filter (fun r => strContains r.matchup away.abbreviation)
  let dfAwayH2H := dfAway.filter (fun r => strContains r.matchup home.abbreviation)
  (joinLogs dfHomeH2H dfAwayH2H).map (orientRow home.abbreviation away.abbreviation)

/-- All rows accumulated in `all_rows` across the scanned seasons of
`get_last_h2h_games`; note the loop has no early exit. -/
def h2hCollected (home away : Team) (startSeason : ℤ) (maxSeasonsBack : ℕ)
    (db : TeamDb) : List H2HRow :=
  (seasonsScanned startSeason maxSeasonsBack).flatMap (h2hSeasonRows home away db)

/-- Sorting collected head-to-head rows by date descending
(`df_all.sort_values("GAME_DATE", ascending=False)`). -/
def sortH2HByDateDesc (l : List H2HRow) : List H2HRow :=
  List.insertionSort (fun x y => y.gameDate ≤ x.gameDate) l

/-- Embedding of `get_last_h2h_games` (nba_core.py lines 147-245): scan
the lookback window season by season, collect all matched oriented rows,
and return the `last_n_h2h` most recent by date; an empty collection
yields `none` (the source's `return None`). -/
def get_last_h2h_games (home away : Team) (startSeason : ℤ)
    (lastNH2H maxSeasonsBack : ℕ) (db : TeamDb) : Option (List H2HRow) :=
  if h2hCollected home away startSeason maxSeasonsBack db = [] then none
  else some
    ((sortH2HByDateDesc (h2hCollected home away startSeason maxSeasonsBack db)).take lastNH2H)

/-- Recursion for the early-stopping scan described by claim C1: after
each fully scanned season, stop as soon as the accumulated count reaches
the requested number of games. -/
def h2hEarlyStopScan (seasonRows : ℤ → List H2HRow) (lastN : ℕ) :
    List ℤ → List H2HRow → List H2HRow
  | [], acc => acc
  | y :: ys, acc =>
    let acc2 := acc ++ seasonRows y
    if lastN ≤ acc2.length then acc2 else h2hEarlyStopScan seasonRows lastN ys acc2

/-- Modelled from the claim wording of C1, for comparison with
`get_last_h2h_games`: the search stops once the requested count of
matched games is reached across accumulated seasons, with the season in
progress always fully scanned before stopping, and the result is the N
most recent matched games by date over the seasons scanned that way. -/
def h2hEarlyStopSpec (home away : Team) (startSeason : ℤ)
    (lastNH2H maxSeasonsBack : ℕ) (db : TeamDb) : Option (List H2HRow) :=
  let acc := h2hEarlyStopScan (h2hSeasonRows home away db) lastNH2H
    (seasonsScanned startSeason maxSeasonsBack) []
  if acc = [] then none
  else some ((sortH2HByDateDesc acc).take lastNH2H)

/-- Team "BOS" of the concrete head-to-head database. -/
def teamBos : Team :=
  ⟨1, "BOS", "Boston Celtics", "Celtics", "Boston"⟩

/-- Team "LAL" of the concrete head-to-head database. -/
def teamLal : Team :=
  ⟨2, "LAL", "Los Angeles Lakers", "Lakers", "Los Angeles"⟩

/-- A concrete two-season database in which the 2023 season contains a
matchup dated later than the 2024 one, separating full-budget scanning
from early-stopped scanning. -/
def dbAnomalous : TeamDb :=
  fun tid y =>
    if tid = 1 ∧ y = 2024 then [⟨100, 100, 110, "BOS vs. LAL"⟩]
    else if tid = 2 ∧ y = 2024 then [⟨100, 100, 95, "LAL @ BOS"⟩]
    else if tid = 1 ∧ y = 2023 then [⟨90, 200, 120, "BOS @ LAL"⟩]
    else if tid = 2 ∧ y = 2023 then [⟨90, 200, 99, "LAL vs. BOS"⟩]
    else []

/-- A concrete single-season database with two consistently recorded
head-to-head games, used to instantiate the symmetry theorem. -/
def dbSymmetric : TeamDb :=
  fun tid y =>
    if tid = 1 ∧ y = 2024 then
      [⟨50, 10, 101, "BOS vs. LAL"⟩, ⟨51, 20, 90, "BOS @ LAL"⟩]
    else if tid = 2 ∧ y = 2024 then
      [⟨50, 10, 99, "LAL @ BOS"⟩, ⟨51, 20, 104, "LAL vs. BOS"⟩]
    else []

/-- One row of a team game log as consumed by `summarize_team_stats`,
holding the numeric columns it may average. -/
structure TeamStatRow where
  pts : ℚ
  fg_pct : ℚ
  fg3_pct : ℚ
  reb : ℚ
  ast : ℚ
  tov : ℚ
deriving DecidableEq, Repr

/-- A team game-log DataFrame for `summarize_team_stats`: the rows plus,
per optional column, whether the upstream data exposed that column
(`"PTS" in df.columns` and so on). -/
structure TeamFrame where
  rows : List TeamStatRow
  hasPTS : Bool
  hasFGPCT : Bool
  hasFG3PCT : Bool
  hasREB : Bool
  hasAST : Bool
  hasTOV : Bool
deriving DecidableEq, Repr

/-- Arithmetic mean of a column, as pandas `Series.mean()` on a
non-empty column. -/
def listMean (l : List ℚ) : ℚ :=
  l.sum / (l.length : ℚ)

/-- Python `round(x, 1)` modelled as rounding to one decimal place. -/
def round1 (q : ℚ) : ℚ :=
  ((round (10 * q) : ℤ) : ℚ) / 10

/-- Embedding of `summarize_team_stats` (nba_core.py lines 321-347):
`None` or an empty frame yields the empty summary; otherwise the game
count is always reported and each average is included only when its
column is present.  The summary is the ordered association list the
source builds. -/
def summarize_team_stats : Option TeamFrame → List (String × ℚ)
  | none => []
  | some df =>
    if df.rows = [] then []
    else
      [("Jogos analisados", (df.rows.length : ℚ))]
        ++ (if df.hasPTS then
              [("Pontos por jogo", round1 (listMean (df.rows.map TeamStatRow.pts)))] else [])
        ++ (if df.hasFGPCT then
              [("FG% (lançamentos)", round1 (listMean (df.rows.map TeamStatRow.fg_pct) * 100))]
            else [])
        ++ (if df.hasFG3PCT then
              [("3PT% (triplos)", round1 (listMean (df.rows.map TeamStatRow.fg3_pct) * 100))]
            else [])
        ++ (if df.hasREB then
              [("Ressaltos por jogo", round1 (listMean (df.rows.map TeamStatRow.reb)))] else [])
        ++ (if df.hasAST then
              [("Assistências por jogo", round1 (listMean (df.rows.map TeamStatRow.ast)))] else [])
        ++ (if df.hasTOV then
              [("Turnovers por jogo", round1 (listMean (df.rows.map TeamStatRow.tov)))] else [])

/-- The metric names `summarize_team_stats` can emit. -/
def summaryMetricNames : List String :=
  ["Jogos analisados", "Pontos por jogo", "FG% (lançamentos)", "3PT% (triplos)",
    "Ressaltos por jogo", "Assistências por jogo", "Turnovers por jogo"]

/-- A superiority flag of `calcular_flags`: the source's strings "✅", "❌"
and "" respectively. -/
inductive CompFlag where
  | green : CompFlag
  | red : CompFlag
  | neutral : CompFlag
deriving DecidableEq, Repr

/-- The `LOWER_BETTER_METRICS` set of nba_core.py (line 29). -/
def LOWER_BETTER_METRICS : List String :=
  ["Turnovers por jogo"]

/-- Embedding of `calcular_flags` (nba_core.py lines 425-454).  A metric
value read from a summary dictionary may be absent (the source's `""`
default, whose `float()` conversion fails), modelled as `none`; the
games-analyzed metric is never compared; turnovers favor the lower
value; all other metrics favor the higher value; exact ties give no
flag to either side. -/
def calcular_flags (metricName : String) (homeVal awayVal : Option ℚ) :
    CompFlag × CompFlag :=
  if strContains metricName "Jogos analisados" then (CompFlag.neutral, CompFlag.neutral)
  else
    match homeVal, awayVal with
    | some hv, some av =>
      if metricName ∈ LOWER_BETTER_METRICS ∨ strContains metricName "Turnovers por jogo" = true then
        if hv < av then (CompFlag.green, CompFlag.red)
        else if av < hv then (CompFlag.red, CompFlag.green)
        else (CompFlag.neutral, CompFlag.neutral)
      else
        if hv > av then (CompFlag.green, CompFlag.red)
        else if av > hv then (CompFlag.red, CompFlag.green)
        else (CompFlag.neutral, CompFlag.neutral)
    | _, _ => (CompFlag.neutral, CompFlag.neutral)

/-- One row of a player game log (`PlayerGameLog`) with the columns read
by the report builders.  A missing minutes value is modelled by the
empty string (the source skips falsy `min_str`); the game id may be
absent (`pd.notna(game_id)` guard). -/
structure PlayerLogRow where
  gameDate : ℤ
  matchup : String
  teamAbbr : String
  pts : ℚ
  reb : ℚ
  ast : ℚ
  fg3m : ℚ
  stl : ℚ
  blk : ℚ
  minStr : String
  gameId : Option ℕ
deriving DecidableEq, Repr

/-- The per-period box-score values returned by
`get_player_period_stats` when data is available. -/
structure PeriodStats where
  pts : ℚ
  reb : ℚ
  ast : ℚ
  fg3m : ℚ
  stl : ℚ
  blk : ℚ
  minStr : String
deriving DecidableEq, Repr

/-- The upstream period box-score source: game id and period give the
player's period stats, or `none` when the fetch fails, the box score is
empty, or the player is absent (all the `return {}` branches). -/
def PeriodDb : Type :=
  ℕ → ℕ → Option PeriodStats

/-- Embedding of `get_player_period_stats` (nba_core.py lines 525-564):
a period outside 1..4 yields no data; otherwise the upstream source is
consulted. -/
def get_player_period_stats (db : PeriodDb) (gameId : ℕ) (period : ℕ) :
    Option PeriodStats :=
  if period = 1 ∨ period = 2 ∨ period = 3 ∨ period = 4 then db gameId period else none

/-- The `STAT_COLS` mapping of nba_core.py (lines 19-26). -/
def STAT_COLS : List (String × String) :=
  [("pts", "PTS"), ("reb", "REB"), ("ast", "AST"),
    ("fg3m", "FG3M"), ("stl", "STL"), ("blk", "BLK")]

/-- The combo statistic keys accepted by
`build_player_multi_stats_report` beyond `STAT_COLS` (lines 733-741). -/
def comboKeys : List String :=
  ["pra", "ra", "pr", "pa", "sb", "pb", "dd", "td"]

/-- Validity test applied to each requested statistic key by
`build_player_multi_stats_report`. -/
def isValidMultiKey (sf : String) : Bool :=
  (STAT_COLS.map Prod.fst).contains sf || comboKeys.contains sf

/-- The full allowed key set of the multi-stat report. -/
def validMultiKeys : List String :=
  STAT_COLS.map Prod.fst ++ comboKeys

/-- The ValueError message of `build_player_multi_stats_report`
(nba_core.py lines 742-748), with the quoted allowed key set. -/
def multiStatsErrorMsg : String :=
  "stat_field deve ser \x27pts\x27, \x27reb\x27, \x27ast\x27, \x27fg3m\x27, \x27stl\x27, \x27blk\x27, \x27pra\x27 (PRA), \x27ra\x27 (Ressaltos+Assistências), \x27pr\x27 (Pontos+Ressaltos), \x27pa\x27 (Pontos+Assistências), \x27sb\x27 (Roubos+Desarmes), \x27pb\x27 (Pontos+Desarmes), \x27dd\x27 (Duplo-Duplo) ou \x27td\x27 (Triplo-Duplo)."

/-- The ValueError message of `build_player_line_report` (line 660). -/
def lineStatErrorMsg : String :=
  "stat_field deve ser \x27pts\x27, \x27reb\x27, \x27ast\x27 ou \x27fg3m\x27."

/-- Number of the five double-double categories reaching 10, as computed
at nba_core.py lines 854-877 (`sum(1 for v in categorias if v >= 10)`);
note three-pointers made are not a category. -/
def countDoubleCats (p r a s b : ℚ) : ℕ :=
  List.countP (fun v => decide ((10 : ℚ) ≤ v)) [p, r, a, s, b]

/-- The double-double indicator: 1 when at least two categories reach
10, else 0 (nba_core.py lines 854-865). -/
def ddIndicator (p r a s b : ℚ) : ℚ :=
  if 2 ≤ countDoubleCats p r a s b then 1 else 0

/-- The triple-double indicator: 1 when at least three categories reach
10, else 0 (nba_core.py lines 867-877). -/
def tdIndicator (p r a s b : ℚ) : ℚ :=
  if 3 ≤ countDoubleCats p r a s b then 1 else 0

/-- The derived per-game value of one statistic key, following the
if-chain of `build_player_multi_stats_report` (lines 828-896) over the
six base stats of the game. -/
def statValue (sf : String) (p r a f3 s b : ℚ) : ℚ :=
  if sf = "pra" then p + r + a
  else if sf = "ra" then r + a
  else if sf = "pr" then p + r
  else if sf = "pa" then p + a
  else if sf = "sb" then s + b
  else if sf = "pb" then p + b
  else if sf = "dd" then ddIndicator p r a s b
  else if sf = "td" then tdIndicator p r a s b
  else if sf = "pts" then p
  else if sf = "reb" then r
  else if sf = "ast" then a
  else if sf = "fg3m" then f3
  else if sf = "stl" then s
  else if sf = "blk" then b
  else 0

/-- The period stats consulted for one game row: only when a period was
requested and the row has a game id (lines 782-786). -/
def rowPeriodStats (pdb : PeriodDb) (period : Option ℕ) (row : PlayerLogRow) :
    Option PeriodStats :=
  match period, row.gameId with
  | some p, some gid => get_player_period_stats pdb gid p
  | _, _ => none

/-- The base stats selected for one game row together with its minutes
string: period-specific values when available, full-game values
otherwise (lines 788-803). -/
structure BaseStats where
  pts : ℚ
  reb : ℚ
  ast : ℚ
  fg3m : ℚ
  stl : ℚ
  blk : ℚ
  minStr : String
deriving DecidableEq, Repr

/-- Selection of base stats for one game (lines 788-803). -/
def rowBaseStats (pdb : PeriodDb) (period : Option ℕ) (row : PlayerLogRow) : BaseStats :=
  match rowPeriodStats pdb period row with
  | some ps => ⟨ps.pts, ps.reb, ps.ast, ps.fg3m, ps.stl, ps.blk, ps.minStr⟩
  | none => ⟨row.pts, row.reb, row.ast, row.fg3m, row.stl, row.blk, row.minStr⟩

/-- Splitting a character list at a separator, as Python `str.split`. -/
def splitOnChar (sep : Char) : List Char → List (List Char)
  | [] => [[]]
  | c :: cs =>
    match splitOnChar sep cs with
    | [] => [[c]]
    | h :: t => if c = sep then [] :: h :: t else (c :: h) :: t

/-- A decimal digit's value. -/
def digitVal (c : Char) : Option ℕ :=
  if '0' ≤ c ∧ c ≤ '9' then some (c.toNat - '0'.toNat) else none

/-- Accumulating digits of a numeral; a non-digit fails the parse. -/
def digitsToNatAux : List Char → ℕ → Option ℕ
  | [], acc => some acc
  | c :: cs, acc =>
    match digitVal c with
    | some d => digitsToNatAux cs (acc * 10 + d)
    | none => none

/-- Python `int()` on a character list (an empty or non-numeric string
raises, modelled as `none`). -/
def pyIntOfChars (l : List Char) : Option ℤ :=
  match l with
  | [] => none
  | c :: cs =>
    if c = '-' then
      match cs with
      | [] => none
      | _ => (digitsToNatAux cs 0).map (fun n => -(n : ℤ))
    else
      (digitsToNatAux l 0).map (fun n => (n : ℤ))

/-- The minutes parsing of `build_player_multi_stats_report` (lines
810-818): split on ":", `int` the minute and optional second parts, and
combine; any failure is swallowed (the game contributes no minutes). -/
def parseMin (s : String) : Option ℚ :=
  match splitOnChar ':' s.toList with
  | [] => none
  | m :: rest =>
    match pyIntOfChars m with
    | none => none
    | some mv =>
      match rest with
      | [] => some (mv : ℚ)
      | sec :: _ =>
        match pyIntOfChars sec with
        | none => none
        | some sv => some ((mv : ℚ) + (sv : ℚ) / 60)

/-- The minutes contribution of one game to the average-minutes
accumulator (lines 805-818): when a period was requested and period
stats came back, a synthetic `10.0 + (period % 2)` is used; otherwise
the selected minutes string is parsed; a missing or unparsable minutes
string contributes nothing. -/
def minuteContrib (pdb : PeriodDb) (period : Option ℕ) (row : PlayerLogRow) : Option ℚ :=
  if period.isSome ∧ (rowPeriodStats pdb period row).isSome then
    some ((10 : ℚ) + (((period.getD 0) % 2 : ℕ) : ℚ))
  else
    let ms := (rowBaseStats pdb period row).minStr
    if ms = "" then none else parseMin ms

/-- One statistic cell of a report row: the key, the derived value and
the hit flag (`green = value >= line_value`, line 899). -/
structure StatEntry where
  key : String
  value : ℚ
  hit : Bool
deriving DecidableEq, Repr

/-- One report row: the game's date and its statistic cells in request
order. -/
structure GameEval where
  gameDate : ℤ
  entries : List StatEntry
deriving DecidableEq, Repr

/-- The derived value of one statistic key for one game row, over that
row's selected base stats. -/
def rowStatValue (pdb : PeriodDb) (period : Option ℕ) (sf : String)
    (row : PlayerLogRow) : ℚ :=
  statValue sf (rowBaseStats pdb period row).pts (rowBaseStats pdb period row).reb
    (rowBaseStats pdb period row).ast (rowBaseStats pdb period row).fg3m
    (rowBaseStats pdb period row).stl (rowBaseStats pdb period row).blk

/-- Evaluation of one game row against every requested line (the inner
loop of lines 828-905). -/
def evalGame (statsLines : List (String × ℚ)) (pdb : PeriodDb) (period : Option ℕ)
    (row : PlayerLogRow) : GameEval :=
  ⟨row.gameDate,
    statsLines.map (fun kv =>
      ⟨kv.1, rowStatValue pdb period kv.1 row,
        decide (kv.2 ≤ rowStatValue pdb period kv.1 row)⟩)⟩

/-- The per-row update of the `hits_por_stat` dictionary (modelled as a
total function from key to count): each requested key whose derived
value meets its line is incremented (lines 899-901). -/
def stepRowHits (statsLines : List (String × ℚ)) (pdb : PeriodDb) (period : Option ℕ)
    (row : PlayerLogRow) (h : String → ℕ) : String → ℕ :=
  statsLines.foldl (fun acc kv =>
    if kv.2 ≤ rowStatValue pdb period kv.1 row then
      fun k => if k = kv.1 then acc k + 1 else acc k
    else acc) h

/-- The running hit counts accumulated over all games (initialised to
zero for every key, line 764). -/
def reportHits (statsLines : List (String × ℚ)) (pdb : PeriodDb) (period : Option ℕ)
    (logs : List PlayerLogRow) : String → ℕ :=
  logs.foldl (fun acc row => stepRowHits statsLines pdb period row acc) (fun _ => 0)

/-- The assembled multi-stat report: rows sorted by date descending,
running hit counts, total game count, and the average-minutes
side-channel attribute. -/
structure MultiReport where
  rows : List GameEval
  hits : String → ℕ
  total : ℕ
  totalMin : ℚ
  countMin : ℕ
  avgMinutes : ℚ
  period : Option ℕ

/-- The report assembly of `build_player_multi_stats_report` after
validation and fetching (lines 763-933). -/
def buildReportCore (statsLines : List (String × ℚ)) (pdb : PeriodDb)
    (period : Option ℕ) (logs : List PlayerLogRow) : MultiReport :=
  let mins := logs.filterMap (minuteContrib pdb period)
  ⟨List.insertionSort (fun x y : GameEval => y.gameDate ≤ x.gameDate)
      (logs.map (evalGame statsLines pdb period)),
    reportHits statsLines pdb period logs,
    logs.length,
    mins.sum,
    mins.length,
    if 0 < mins.length then mins.sum / (mins.length : ℚ) else 0,
    period⟩

/-- Embedding of `build_player_multi_stats_report` (nba_core.py lines
722-935).  An empty request yields no report; then every requested key
is validated before any player resolution or fetching, an invalid key
raising the ValueError with the allowed key set; the fetched game log is
modelled by the `fetched` argument with `none` for an unresolved player
or failed fetch, and an empty log yields no report. -/
def build_player_multi_stats_report (statsLines : List (String × ℚ))
    (period : Option ℕ) (fetched : Option (List PlayerLogRow)) (pdb : PeriodDb) :
    Except String (Option MultiReport) :=
  if statsLines = [] then Except.ok none
  else if statsLines.any (fun kv => !(isValidMultiKey kv.1)) then
    Except.error multiStatsErrorMsg
  else
    match fetched with
    | none => Except.ok none
    | some logs =>
      if logs = [] then Except.ok none
      else Except.ok (some (buildReportCore statsLines pdb period logs))

/-- One row of the single-line report of `build_player_line_report`. -/
structure LineReportRow where
  gameDate : ℤ
  value : ℚ
  hit : Bool
deriving DecidableEq, Repr

/-- The assembled single-line report with its hit-count attributes. -/
structure LineReport where
  rows : List LineReportRow
  hits : ℕ
  total : ℕ

/-- Reading the game-log column named by `STAT_COLS` from a row
(`float(row.get(stat_col, 0))`). -/
def rowStatCol (col : String) (row : PlayerLogRow) : ℚ :=
  if col = "PTS" then row.pts
  else if col = "REB" then row.reb
  else if col = "AST" then row.ast
  else if col = "FG3M" then row.fg3m
  else if col = "STL" then row.stl
  else if col = "BLK" then row.blk
  else 0

/-- Embedding of `build_player_line_report` (nba_core.py lines 652-719):
the statistic key is validated first; the fetched log is given as an
argument as above; each game's value is compared against the line with
ties counting as hits, and the running hit count is accumulated over
the games. -/
def buildLineReportCore (sf : String) (lineValue : ℚ)
    (logs : List PlayerLogRow) : LineReport :=
  let col := (((STAT_COLS.find? (fun e => e.1 = sf)).map Prod.snd).getD "")
  ⟨List.insertionSort (fun x y : LineReportRow => y.gameDate ≤ x.gameDate)
      (logs.map (fun row =>
        ⟨row.gameDate, rowStatCol col row, decide (lineValue ≤ rowStatCol col row)⟩)),
    logs.foldl (fun acc row =>
      if lineValue ≤ rowStatCol col row then acc + 1 else acc) 0,
    logs.length⟩

/-- The validation and fetch-handling wrapper of
`build_player_line_report`. -/
def build_player_line_report (sf : String) (lineValue : ℚ)
    (fetched : Option (List PlayerLogRow)) : Except String (Option LineReport) :=
  if !(STAT_COLS.map Prod.fst).contains sf then Except.error lineStatErrorMsg
  else
    match fetched with
    | none => Except.ok none
    | some logs =>
      if logs = [] then Except.ok none
      else Except.ok (some (buildLineReportCore sf lineValue logs))

/-- A concrete player game-log row whose period data will be absent. -/
def samplePlayerRow : PlayerLogRow :=
  ⟨1, "BOS vs. LAL", "BOS", 20, 5, 4, 2, 1, 0, "30:00", some 7⟩

/-- The same game with a different full-game minutes string. -/
def samplePlayerRowB : PlayerLogRow :=
  ⟨1, "BOS vs. LAL", "BOS", 20, 5, 4, 2, 1, 0, "20:00", some 7⟩

/-- A period box-score source with no data at all. -/
def emptyPeriodDb : PeriodDb :=
  fun _ _ => none

/-- A period box-score source carrying data for every game and period. -/
def fullPeriodDb : PeriodDb :=
  fun _ _ => some ⟨5, 2, 1, 1, 0, 0, "10:30"⟩

/-- A concrete non-empty team frame exposing only some columns. -/
def sampleTeamFrame : TeamFrame :=
  ⟨[⟨100, 0, 0, 40, 20, 10⟩], true, false, false, true, true, false⟩

/-- The relation `sorted by date descending` used on head-to-head rows is
total. -/
instance : IsTotal H2HRow (fun x y => y.gameDate ≤ x.gameDate) :=
  ⟨fun a b => le_total b.gameDate a.gameDate⟩

/-- The relation `sorted by date descending` used on head-to-head rows is
transitive. -/
instance : IsTrans H2HRow (fun x y => y.gameDate ≤ x.gameDate) :=
  ⟨fun _ _ _ hab hbc => le_trans hbc hab⟩

/-- The strict date-descending relation is antisymmetric (vacuously). -/
instance : IsAntisymm H2HRow (fun x y => y.gameDate < x.gameDate) :=
  ⟨fun _ _ h1 h2 => absurd (h1.trans h2) (lt_irrefl _)⟩

/-- The empty pattern is a substring of every string, as in Python. -/
theorem strContains_empty_pat (hay : String) : strContains hay "" = true := by
  unfold strContains
  exact decide_eq_true List.nil_infix

/-- Claim C10: a non-empty, whitespace-only search string resolves to the
first team of the catalog, because the stripped empty text is a substring
of every full name; only the truly empty string yields no result. -/
theorem c10_whitespace_search_returns_first_team (s : String) (teams : List Team)
    (hne : s ≠ "") (hws : pyStrip s = "") :
    find_team_by_abbr s teams = teams.head? ∧ find_team_by_abbr "" teams = none := by
  constructor
  · unfold find_team_by_abbr
    rw [if_neg hne, hws]
    cases teams with
    | nil => rfl
    | cons t ts =>
      have hm : teamMatches (pyLower "") t = true := by
        have h0 : pyLower "" = "" := by decide
        rw [h0]
        simp [teamMatches, strContains_empty_pat]
      simp [List.find?_cons, hm]
  · rfl

/-- Witness for C10 at the single-space search string and the concrete
two-team catalog. -/
theorem c10_witness :
    (" " ≠ "") ∧ pyStrip " " = "" ∧
      (find_team_by_abbr " " smallCatalog = smallCatalog.head? ∧
        find_team_by_abbr "" smallCatalog = none) :=
  ⟨by decide, by decide,
    c10_whitespace_search_returns_first_team " " smallCatalog (by decide) (by decide)⟩

/-- Counterexample to claim C2 as stated: on the concrete catalog, the
query "BRA" resolves to the first team (whose full name merely contains
"bra") although a later team matches the higher-priority exact
abbreviation condition, so resolution does not follow condition-priority
order across teams. -/
theorem c2_counterexample :
    find_team_by_abbr "BRA" smallCatalog = some teamAlpha ∧
    findTeamByPriority "BRA" smallCatalog = some teamBravo ∧
    teamAlpha ≠ teamBravo := by
  refine ⟨?_, ?_, ?_⟩ <;> decide

/-- Claim C2 amended: team resolution returns the first team in catalog
order satisfying any of the six conditions (exact abbreviation, exact
full name, exact nickname, exact city, substring-of-full-name,
substring-of-nickname); condition order does not rank teams. -/
theorem c2_first_catalog_match (s : String) (teams : List Team) (t : Team)
    (hs : s ≠ "") :
    find_team_by_abbr s teams = some t ↔
      teamMatches (pyLower (pyStrip s)) t = true ∧
      ∃ pre post, teams = pre ++ t :: post ∧
        ∀ u ∈ pre, teamMatches (pyLower (pyStrip s)) u = false := by
  unfold find_team_by_abbr
  rw [if_neg hs, List.find?_eq_some]
  simp only [Bool.not_eq_true']

/-- Witness for C2's amended claim on the concrete catalog. -/
theorem c2_witness :
    ("BRA" ≠ "") ∧ find_team_by_abbr "BRA" smallCatalog = some teamAlpha :=
  ⟨by decide,
    (c2_first_catalog_match "BRA" smallCatalog teamAlpha (by decide)).mpr
      ⟨by decide, [], [teamBravo], rfl, by simp⟩⟩

/-- Claim C4: the double-double indicator is 1 exactly when at least two
of points, rebounds, assists, steals, blocks reach 10 (else 0), the
triple-double indicator uses the same rule with three categories, and a
triple-double always implies a double-double. -/
theorem c4_double_double_triple_double (p r a s b : ℚ) :
    (ddIndicator p r a s b = 1 ↔
      ((10 ≤ p ∧ 10 ≤ r) ∨ (10 ≤ p ∧ 10 ≤ a) ∨ (10 ≤ p ∧ 10 ≤ s) ∨ (10 ≤ p ∧ 10 ≤ b) ∨
        (10 ≤ r ∧ 10 ≤ a) ∨ (10 ≤ r ∧ 10 ≤ s) ∨ (10 ≤ r ∧ 10 ≤ b) ∨
        (10 ≤ a ∧ 10 ≤ s) ∨ (10 ≤ a ∧ 10 ≤ b) ∨ (10 ≤ s ∧ 10 ≤ b))) ∧
    (ddIndicator p r a s b = 0 ↔
      ¬ ((10 ≤ p ∧ 10 ≤ r) ∨ (10 ≤ p ∧ 10 ≤ a) ∨ (10 ≤ p ∧ 10 ≤ s) ∨ (10 ≤ p ∧ 10 ≤ b) ∨
        (10 ≤ r ∧ 10 ≤ a) ∨ (10 ≤ r ∧ 10 ≤ s) ∨ (10 ≤ r ∧ 10 ≤ b) ∨
        (10 ≤ a ∧ 10 ≤ s) ∨ (10 ≤ a ∧ 10 ≤ b) ∨ (10 ≤ s ∧ 10 ≤ b))) ∧
    (tdIndicator p r a s b = 1 ↔
      ((10 ≤ p ∧ 10 ≤ r ∧ 10 ≤ a) ∨ (10 ≤ p ∧ 10 ≤ r ∧ 10 ≤ s) ∨ (10 ≤ p ∧ 10 ≤ r ∧ 10 ≤ b) ∨
        (10 ≤ p ∧ 10 ≤ a ∧ 10 ≤ s) ∨ (10 ≤ p ∧ 10 ≤ a ∧ 10 ≤ b) ∨ (10 ≤ p ∧ 10 ≤ s ∧ 10 ≤ b) ∨
        (10 ≤ r ∧ 10 ≤ a ∧ 10 ≤ s) ∨ (10 ≤ r ∧ 10 ≤ a ∧ 10 ≤ b) ∨
        (10 ≤ r ∧ 10 ≤ s ∧ 10 ≤ b) ∨ (10 ≤ a ∧ 10 ≤ s ∧ 10 ≤ b))) ∧
    (tdIndicator p r a s b = 1 → ddIndicator p r a s b = 1) := by
  by_cases hp : (10 : ℚ) ≤ p <;> by_cases hr : (10 : ℚ) ≤ r <;>
    by_cases ha : (10 : ℚ) ≤ a <;> by_cases hs : (10 : ℚ) ≤ s <;>
    by_cases hb : (10 : ℚ) ≤ b <;>
    simp [ddIndicator, tdIndicator, countDoubleCats, hp, hr, ha, hs, hb]

/-- Witness for C4 at a concrete triple-double stat line. -/
theorem c4_witness : ddIndicator 12 11 3 0 1 = 1 :=
  (c4_double_double_triple_double 12 11 3 0 1).1.mpr (Or.inl ⟨by norm_num, by norm_num⟩)

/-- Helper for C3: on a metric name that is neither games-analyzed nor a
lower-is-better metric, the higher value is flagged better, the lower
worse, and a tie flags neither. -/
theorem calc_flags_regular (m : String) (hv av : ℚ)
    (h1 : strContains m "Jogos analisados" = false)
    (h2 : ¬(m ∈ LOWER_BETTER_METRICS ∨ strContains m "Turnovers por jogo" = true)) :
    (av < hv → calcular_flags m (some hv) (some av) = (CompFlag.green, CompFlag.red)) ∧
    (hv < av → calcular_flags m (some hv) (some av) = (CompFlag.red, CompFlag.green)) ∧
    (hv = av → calcular_flags m (some hv) (some av) = (CompFlag.neutral, CompFlag.neutral)) := by
  refine ⟨fun hlt => ?_, fun hlt => ?_, fun heq => ?_⟩
  · simp [calcular_flags, h1, h2, hlt]
  · simp [calcular_flags, h1, h2, hlt, lt_asymm hlt]
  · subst heq
    simp [calcular_flags, h1, h2, lt_irrefl]

/-- Claim C3: in the superiority comparison, the games-analyzed metric
never produces a flag, turnovers per game favors the strictly lower
value, every other summary metric favors the strictly higher value, a
strict tie flags neither side, and the two flags are antisymmetric on
all inputs. -/
theorem c3_superiority_flags (m : String) (hm : m ∈ summaryMetricNames) (hv av : ℚ) :
    (calcular_flags "Jogos analisados" (some hv) (some av) =
      (CompFlag.neutral, CompFlag.neutral)) ∧
    (m = "Turnovers por jogo" →
      (hv < av → calcular_flags m (some hv) (some av) = (CompFlag.green, CompFlag.red)) ∧
      (av < hv → calcular_flags m (some hv) (some av) = (CompFlag.red, CompFlag.green)) ∧
      (hv = av → calcular_flags m (some hv) (some av) = (CompFlag.neutral, CompFlag.neutral))) ∧
    (m ≠ "Jogos analisados" → m ≠ "Turnovers por jogo" →
      (av < hv → calcular_flags m (some hv) (some av) = (CompFlag.green, CompFlag.red)) ∧
      (hv < av → calcular_flags m (some hv) (some av) = (CompFlag.red, CompFlag.green)) ∧
      (hv = av → calcular_flags m (some hv) (some av) = (CompFlag.neutral, CompFlag.neutral))) ∧
    (∀ mName : String, ∀ x y : Option ℚ,
      (((calcular_flags mName x y).1 = CompFlag.green) ↔
        ((calcular_flags mName x y).2 = CompFlag.red)) ∧
      (((calcular_flags mName x y).1 = CompFlag.red) ↔
        ((calcular_flags mName x y).2 = CompFlag.green)) ∧
      (((calcular_flags mName x y).1 = CompFlag.neutral) ↔
        ((calcular_flags mName x y).2 = CompFlag.neutral))) := by
  refine ⟨?_, ?_, ?_, ?_⟩
  · have hc : strContains "Jogos analisados" "Jogos analisados" = true := by decide
    simp [calcular_flags, hc]
  · rintro rfl
    have hc1 : strContains "Turnovers por jogo" "Jogos analisados" = false := by decide
    have hc2 : ("Turnovers por jogo" ∈ LOWER_BETTER_METRICS ∨
        strContains "Turnovers por jogo" "Turnovers por jogo" = true) := by decide
    refine ⟨fun hlt => ?_, fun hlt => ?_, fun heq => ?_⟩
    · simp [calcular_flags, hc1, hc2, hlt]
    · simp [calcular_flags, hc1, hc2, hlt, lt_asymm hlt]
    · subst heq
      simp [calcular_flags, hc1, hc2, lt_irrefl]
  · intro hne1 hne2
    have h1 : strContains m "Jogos analisados" = false := by
      fin_cases hm <;> first | (exact absurd rfl hne1) | decide
    have h2 : ¬(m ∈ LOWER_BETTER_METRICS ∨ strContains m "Turnovers por jogo" = true) := by
      fin_cases hm <;>
        first | (exact absurd rfl hne1) | (exact absurd rfl hne2) | decide
    exact calc_flags_regular m hv av h1 h2
  · intro mName x y
    unfold calcular_flags
    rcases x with _ | xv <;> rcases y with _ | yv <;> split_ifs <;>
      simp_all <;> split_ifs <;> simp_all

/-- Witness for C3 at the points-per-game metric with a decided
comparison. -/
theorem c3_witness :
    calcular_flags "Pontos por jogo" (some (3 : ℚ)) (some 2) =
      (CompFlag.green, CompFlag.red) :=
  ((c3_superiority_flags "Pontos por jogo" (by decide) 3 2).2.2.1
    (by decide) (by decide)).1 (by decide)

/-- Claim C9: the metric aggregator on an absent or empty game-log frame
returns the empty summary (no average, hence no division, is ever
computed), and on a non-empty frame the game count is always reported
while each average appears in the summary exactly when its source column
is present. -/
theorem c9_summarize_empty_and_columns (df : TeamFrame) (hne : df.rows ≠ []) :
    (summarize_team_stats none = []) ∧
    (∀ f : TeamFrame, f.rows = [] → summarize_team_stats (some f) = []) ∧
    ("Jogos analisados" ∈ (summarize_team_stats (some df)).map Prod.fst) ∧
    (("Pontos por jogo" ∈ (summarize_team_stats (some df)).map Prod.fst) ↔
      df.hasPTS = true) ∧
    (("FG% (lançamentos)" ∈ (summarize_team_stats (some df)).map Prod.fst) ↔
      df.hasFGPCT = true) ∧
    (("3PT% (triplos)" ∈ (summarize_team_stats (some df)).map Prod.fst) ↔
      df.hasFG3PCT = true) ∧
    (("Ressaltos por jogo" ∈ (summarize_team_stats (some df)).map Prod.fst) ↔
      df.hasREB = true) ∧
    (("Assistências por jogo" ∈ (summarize_team_stats (some df)).map Prod.fst) ↔
      df.hasAST = true) ∧
    (("Turnovers por jogo" ∈ (summarize_team_stats (some df)).map Prod.fst) ↔
      df.hasTOV = true) := by
  refine ⟨rfl, fun f hf => by simp [summarize_team_stats, hf], ?_, ?_, ?_, ?_, ?_, ?_, ?_⟩ <;>
    rcases df with ⟨rows, b1, b2, b3, b4, b5, b6⟩ <;>
    simp only at hne <;>
    cases b1 <;> cases b2 <;> cases b3 <;> cases b4 <;> cases b5 <;> cases b6 <;>
    simp [summarize_team_stats, hne]

/-- Witness for C9: on the concrete single-row frame exposing only the
points, rebounds and assists columns, the points-per-game metric is
present in the summary. -/
theorem c9_witness :
    "Pontos por jogo" ∈ (summarize_team_stats (some sampleTeamFrame)).map Prod.fst :=
  (c9_summarize_empty_and_columns sampleTeamFrame (by decide)).2.2.2.1.mpr rfl

set_option maxRecDepth 4096 in
/-- Claim C8: a multi-stat report request containing any statistic key
outside the allowed set fails with the ValueError carrying the message
that names the full allowed key set, and it does so for every possible
fetch outcome and period source - no player resolution or data fetch
influences the rejection and no partial result is produced. -/
theorem c8_unknown_key_rejected (statsLines : List (String × ℚ)) (period : Option ℕ)
    (fetched : Option (List PlayerLogRow)) (pdb : PeriodDb)
    (h : ∃ kv ∈ statsLines, isValidMultiKey kv.1 = false) :
    build_player_multi_stats_report statsLines period fetched pdb =
      Except.error multiStatsErrorMsg ∧
    ∀ k ∈ validMultiKeys, strContains multiStatsErrorMsg ("\x27" ++ k ++ "\x27") = true := by
  obtain ⟨kv, hmem, hbad⟩ := h
  constructor
  · have hne : statsLines ≠ [] := List.ne_nil_of_mem hmem
    have hany : statsLines.any (fun kv => !(isValidMultiKey kv.1)) = true :=
      List.any_eq_true.mpr ⟨kv, hmem, by simp [hbad]⟩
    unfold build_player_multi_stats_report
    rw [if_neg hne, if_pos hany]
  · decide

/-- Witness for C8 at the unknown key "xyz". -/
theorem c8_witness :
    (∃ kv ∈ [(("xyz" : String), (10 : ℚ))], isValidMultiKey kv.1 = false) ∧
    build_player_multi_stats_report [("xyz", 10)] none none emptyPeriodDb =
      Except.error multiStatsErrorMsg :=
  ⟨by decide,
    (c8_unknown_key_rejected [("xyz", 10)] none none emptyPeriodDb (by decide)).1⟩

/-- Unfolding one per-game pass of the hit-count dictionary update. -/
theorem stepRowHits_apply (statsLines : List (String × ℚ)) (pdb : PeriodDb)
    (period : Option ℕ) (row : PlayerLogRow) (h : String → ℕ) (sf : String) :
    stepRowHits statsLines pdb period row h sf =
      h sf + statsLines.countP (fun kv =>
        decide (kv.1 = sf) && decide (kv.2 ≤ rowStatValue pdb period kv.1 row)) := by
  induction statsLines generalizing h with
  | nil => simp [stepRowHits]
  | cons kv sl ih =>
    have hstep : stepRowHits (kv :: sl) pdb period row h =
        stepRowHits sl pdb period row
          (if kv.2 ≤ rowStatValue pdb period kv.1 row then
            (fun k => if k = kv.1 then h k + 1 else h k) else h) := by
      simp [stepRowHits]
    rw [hstep, ih, List.countP_cons]
    rcases eq_or_ne kv.1 sf with h2 | h2
    · rw [h2]
      by_cases h1 : kv.2 ≤ rowStatValue pdb period sf row <;>
        simp [h1] <;> omega
    · by_cases h1 : kv.2 ≤ rowStatValue pdb period kv.1 row <;>
        simp [h1, h2, Ne.symm h2] <;> omega

/-- With pairwise distinct requested keys, any requested pair sharing the
key of a given pair is that pair. -/
theorem mem_key_unique (sl : List (String × ℚ)) (sf : String) (line : ℚ)
    (hnd : (sl.map Prod.fst).Nodup) (hmem : (sf, line) ∈ sl) :
    ∀ kv ∈ sl, kv.1 = sf → kv = (sf, line) := by
  induction sl with
  | nil => cases hmem
  | cons hd sl ih =>
    simp only [List.map_cons, List.nodup_cons] at hnd
    intro kv hkv hk
    rcases List.mem_cons.mp hmem with heq | hmem2
    · rcases List.mem_cons.mp hkv with rfl | hkv2
      · exact heq.symm
      · exfalso
        have hsf : sf ∈ sl.map Prod.fst := List.mem_map.mpr ⟨kv, hkv2, hk⟩
        rw [← heq] at hnd
        exact hnd.1 hsf
    · rcases List.mem_cons.mp hkv with rfl | hkv2
      · exfalso
        have hsf : sf ∈ sl.map Prod.fst := List.mem_map.mpr ⟨(sf, line), hmem2, rfl⟩
        rw [← hk] at hsf
        exact hnd.1 hsf
      · exact ih hnd.2 hmem2 kv hkv2 hk

/-- Counting over the requested lines with a key filter selects exactly
the pair carrying that key, when keys are pairwise distinct. -/
theorem countP_key_unique (sl : List (String × ℚ)) (sf : String) (line : ℚ)
    (hnd : (sl.map Prod.fst).Nodup) (hmem : (sf, line) ∈ sl)
    (q : String × ℚ → Bool) :
    sl.countP (fun kv => decide (kv.1 = sf) && q kv) =
      if q (sf, line) then 1 else 0 := by
  induction sl with
  | nil => cases hmem
  | cons hd sl ih =>
    simp only [List.map_cons, List.nodup_cons] at hnd
    rw [List.countP_cons]
    rcases List.mem_cons.mp hmem with heq | hmem2
    · subst heq
      have h0 : sl.countP (fun kv => decide (kv.1 = sf) && q kv) = 0 := by
        refine List.countP_eq_zero.mpr (fun kv hkv => ?_)
        have : kv.1 ≠ sf := by
          intro hk
          exact hnd.1 (List.mem_map.mpr ⟨kv, hkv, hk⟩)
        simp [this]
      rw [h0]
      by_cases hq : q (sf, line) <;> simp [hq]
    · have hd1 : ¬(hd.1 = sf) := by
        intro hk
        have hsf : sf ∈ sl.map Prod.fst := List.mem_map.mpr ⟨(sf, line), hmem2, rfl⟩
        rw [← hk] at hsf
        exact hnd.1 hsf
      rw [ih hnd.2 hmem2]
      simp [hd1]

/-- The hit-count fold over the games adds one indicator per game. -/
theorem reportHits_foldl (sl : List (String × ℚ)) (pdb : PeriodDb) (period : Option ℕ)
    (logs : List PlayerLogRow) (h0 : String → ℕ) (sf : String) :
    (logs.foldl (fun acc row => stepRowHits sl pdb period row acc) h0) sf =
      h0 sf + (logs.map (fun row => sl.countP (fun kv =>
        decide (kv.1 = sf) && decide (kv.2 ≤ rowStatValue pdb period kv.1 row)))).sum := by
  induction logs generalizing h0 with
  | nil => simp
  | cons row logs ih =>
    rw [List.foldl_cons, ih, stepRowHits_apply]
    simp [List.map_cons, List.sum_cons]
    omega

/-- A sum of boolean indicators is a count. -/
theorem sum_ite_eq_countP {α : Type} (l : List α) (p : α → Bool) :
    (l.map (fun x => if p x = true then 1 else 0)).sum = l.countP p := by
  induction l with
  | nil => rfl
  | cons x l ih =>
    rw [List.map_cons, List.sum_cons, List.countP_cons, ih]
    by_cases h : p x = true <;> simp [h] <;> omega

/-- The accumulated hit count of a requested key equals the number of
games whose derived value for that key meets its line. -/
theorem reportHits_eq (sl : List (String × ℚ)) (pdb : PeriodDb) (period : Option ℕ)
    (logs : List PlayerLogRow) (sf : String) (line : ℚ)
    (hnd : (sl.map Prod.fst).Nodup) (hmem : (sf, line) ∈ sl) :
    reportHits sl pdb period logs sf =
      logs.countP (fun row => decide (line ≤ rowStatValue pdb period sf row)) := by
  unfold reportHits
  rw [reportHits_foldl]
  have hpt : ∀ row : PlayerLogRow,
      sl.countP (fun kv =>
        decide (kv.1 = sf) && decide (kv.2 ≤ rowStatValue pdb period kv.1 row)) =
      if decide (line ≤ rowStatValue pdb period sf row) = true then 1 else 0 := by
    intro row
    have h := countP_key_unique sl sf line hnd hmem
      (fun kv => decide (kv.2 ≤ rowStatValue pdb period kv.1 row))
    simpa using h
  rw [List.map_congr_left (fun row _ => hpt row), sum_ite_eq_countP]
  simp

/-- Every entry of an evaluated game row is built from a requested
line. -/
theorem evalGame_entry_mem (sl : List (String × ℚ)) (pdb : PeriodDb)
    (period : Option ℕ) (row : PlayerLogRow) (e : StatEntry)
    (he : e ∈ (evalGame sl pdb period row).entries) :
    ∃ kv ∈ sl, e = ⟨kv.1, rowStatValue pdb period kv.1 row,
      decide (kv.2 ≤ rowStatValue pdb period kv.1 row)⟩ := by
  simp only [evalGame, List.mem_map] at he
  obtain ⟨kv, hkv, rfl⟩ := he
  exact ⟨kv, hkv, rfl⟩

/-- A game row carries a hit entry for a requested key exactly when the
derived value of that key meets its line. -/
theorem evalGame_any_hit (sl : List (String × ℚ)) (pdb : PeriodDb) (period : Option ℕ)
    (row : PlayerLogRow) (sf : String) (line : ℚ)
    (hnd : (sl.map Prod.fst).Nodup) (hmem : (sf, line) ∈ sl) :
    (evalGame sl pdb period row).entries.any (fun e => decide (e.key = sf) && e.hit) =
      decide (line ≤ rowStatValue pdb period sf row) := by
  cases hq : decide (line ≤ rowStatValue pdb period sf row) with
  | true =>
    refine List.any_eq_true.mpr
      ⟨⟨sf, rowStatValue pdb period sf row,
        decide (line ≤ rowStatValue pdb period sf row)⟩, ?_, ?_⟩
    · simp only [evalGame, List.mem_map]
      exact ⟨(sf, line), hmem, rfl⟩
    · simp [hq]
  | false =>
    refine List.any_eq_false.mpr (fun e he => ?_)
    obtain ⟨kv, hkv, rfl⟩ := evalGame_entry_mem sl pdb period row e he
    by_cases hk : kv.1 = sf
    · have := mem_key_unique sl sf line hnd hmem kv hkv hk
      subst this
      simp [hq]
    · simp [hk]

/-- The line-report hit fold counts the hit games. -/
theorem line_hits_foldl (lv : ℚ) (col : String) (logs : List PlayerLogRow) (n : ℕ) :
    logs.foldl (fun acc row => if lv ≤ rowStatCol col row then acc + 1 else acc) n =
      n + logs.countP (fun row => decide (lv ≤ rowStatCol col row)) := by
  induction logs generalizing n with
  | nil => simp
  | cons row logs ih =>
    rw [List.foldl_cons, ih, List.countP_cons]
    by_cases h : lv ≤ rowStatCol col row <;> simp [h] <;> omega

/-- Claim C5: in both report builders every game's hit flag is set
exactly when the derived value reaches the threshold (ties are hits),
and the running hit count equals the number of report rows flagged as
hits. -/
theorem c5_hit_flags_and_counts (statsLines : List (String × ℚ)) (pdb : PeriodDb)
    (period : Option ℕ) (logs : List PlayerLogRow) (sf : String) (line : ℚ)
    (hnd : (statsLines.map Prod.fst).Nodup) (hmem : (sf, line) ∈ statsLines) :
    (∀ g ∈ (buildReportCore statsLines pdb period logs).rows,
      ∀ e ∈ g.entries, e.key = sf → (e.hit = true ↔ line ≤ e.value)) ∧
    (buildReportCore statsLines pdb period logs).hits sf =
      (buildReportCore statsLines pdb period logs).rows.countP
        (fun g => g.entries.any (fun e => decide (e.key = sf) && e.hit)) ∧
    (∀ lv : ℚ, ∀ logs2 : List PlayerLogRow, ∀ rep : LineReport,
      build_player_line_report sf lv (some logs2) = Except.ok (some rep) →
      (∀ lr ∈ rep.rows, (lr.hit = true ↔ lv ≤ lr.value)) ∧
      rep.hits = rep.rows.countP LineReportRow.hit) := by
  refine ⟨?_, ?_, ?_⟩
  · intro g hg e he hk
    simp only [buildReportCore] at hg
    have hg2 : g ∈ logs.map (evalGame statsLines pdb period) :=
      (List.perm_insertionSort _ _).mem_iff.mp hg
    obtain ⟨row, hrow, rfl⟩ := List.mem_map.mp hg2
    obtain ⟨kv, hkv, rfl⟩ := evalGame_entry_mem statsLines pdb period row e he
    have hkveq := mem_key_unique statsLines sf line hnd hmem kv hkv hk
    subst hkveq
    simp
  · simp only [buildReportCore]
    rw [reportHits_eq statsLines pdb period logs sf line hnd hmem,
      (List.perm_insertionSort _ _).countP_eq, List.countP_map]
    exact List.countP_congr (fun row _ => by
      simp only [Function.comp_apply]
      rw [evalGame_any_hit statsLines pdb period row sf line hnd hmem])
  · intro lv logs2 rep hrep
    unfold build_player_line_report at hrep
    by_cases hv : (!(STAT_COLS.map Prod.fst).contains sf) = true
    · rw [if_pos hv] at hrep
      cases hrep
    · rw [if_neg hv] at hrep
      have hrep2 : (if logs2 = [] then (Except.ok none : Except String (Option LineReport))
          else Except.ok (some (buildLineReportCore sf lv logs2))) =
          Except.ok (some rep) := hrep
      by_cases hempty : logs2 = []
      · rw [if_pos hempty] at hrep2
        cases ((Except.ok.injEq _ _).mp hrep2)
      · rw [if_neg hempty] at hrep2
        have hrep3 := (Option.some.injEq _ _).mp ((Except.ok.injEq _ _).mp hrep2)
        subst hrep3
        constructor
        · intro lr hlr
          simp only [buildLineReportCore] at hlr
          have hlr2 := (List.perm_insertionSort _ _).mem_iff.mp hlr
          obtain ⟨row, hrow, rfl⟩ := List.mem_map.mp hlr2
          simp
        · simp only [buildLineReportCore]
          rw [line_hits_foldl, Nat.zero_add, (List.perm_insertionSort _ _).countP_eq,
            List.countP_map]
          exact List.countP_congr (fun row _ => Iff.rfl)

/-- Witness for C5 on a concrete one-game, one-line request. -/
theorem c5_witness :
    (buildReportCore [("pts", 10)] emptyPeriodDb none [samplePlayerRow]).hits "pts" =
      (buildReportCore [("pts", 10)] emptyPeriodDb none [samplePlayerRow]).rows.countP
        (fun g => g.entries.any (fun e => decide (e.key = "pts") && e.hit)) :=
  (c5_hit_flags_and_counts [("pts", 10)] emptyPeriodDb none [samplePlayerRow] "pts" 10
    (by decide) (by decide)).2.1

/-- A filterMap whose function is constantly successful with the same
value is a constant map. -/
theorem filterMap_eq_map_const {α : Type} (l : List α) (f : α → Option ℚ) (c : ℚ)
    (h : ∀ x ∈ l, f x = some c) : l.filterMap f = l.map (fun _ => c) := by
  induction l with
  | nil => rfl
  | cons x l ih =>
    rw [List.filterMap_cons, h x (List.mem_cons_self x l), List.map_cons,
      ih (fun y hy => h y (List.mem_cons_of_mem x hy))]

/-- Summing a constant map. -/
theorem sum_map_const_rat {α : Type} (l : List α) (c : ℚ) :
    (l.map (fun _ => c)).sum = (l.length : ℚ) * c := by
  induction l with
  | nil => simp
  | cons x l ih =>
    rw [List.map_cons, List.sum_cons, ih, List.length_cons]
    push_cast
    ring

/-- Claim C7 (amended): when a period is requested, base stats are
substituted with period values exactly for the games whose period data
is available; a game without period data is kept in the report with its
full-game stats and contributes its parsed full-game minutes; and it is
precisely the games WITH period data that receive the synthetic
approximate minutes value `10 + period % 2`, so that a report whose
games all have period data reports that constant as its average
minutes regardless of the true minute strings. -/
theorem c7_period_substitution_and_minutes (p : ℕ) (pdb : PeriodDb)
    (sl : List (String × ℚ)) (logs : List PlayerLogRow)
    (hp1 : 1 ≤ p) (hp4 : p ≤ 4) (hne : logs ≠ [])
    (hall : ∀ row ∈ logs, ∃ gid ps, row.gameId = some gid ∧ pdb gid p = some ps) :
    (buildReportCore sl pdb (some p) logs).avgMinutes = 10 + ((p % 2 : ℕ) : ℚ) ∧
    (∀ row : PlayerLogRow, rowPeriodStats pdb (some p) row = none →
      rowBaseStats pdb (some p) row =
        ⟨row.pts, row.reb, row.ast, row.fg3m, row.stl, row.blk, row.minStr⟩ ∧
      minuteContrib pdb (some p) row =
        (if row.minStr = "" then none else parseMin row.minStr)) ∧
    (∀ row : PlayerLogRow, ∀ ps : PeriodStats,
      rowPeriodStats pdb (some p) row = some ps →
      rowBaseStats pdb (some p) row =
        ⟨ps.pts, ps.reb, ps.ast, ps.fg3m, ps.stl, ps.blk, ps.minStr⟩ ∧
      minuteContrib pdb (some p) row = some (10 + ((p % 2 : ℕ) : ℚ))) ∧
    ((buildReportCore sl pdb (some p) logs).rows.length = logs.length ∧
      (buildReportCore sl pdb (some p) logs).total = logs.length) := by
  have hguard : p = 1 ∨ p = 2 ∨ p = 3 ∨ p = 4 := by omega
  refine ⟨?_, ?_, ?_, ?_, ?_⟩
  · have hsome : ∀ row ∈ logs,
        minuteContrib pdb (some p) row = some (10 + ((p % 2 : ℕ) : ℚ)) := by
      intro row hrow
      obtain ⟨gid, ps, hgid, hps⟩ := hall row hrow
      have hrps : rowPeriodStats pdb (some p) row = some ps := by
        simp [rowPeriodStats, hgid, get_player_period_stats, hguard, hps]
      simp [minuteContrib, hrps]
    simp only [buildReportCore]
    rw [filterMap_eq_map_const logs _ _ hsome, sum_map_const_rat]
    have hlen : logs.length ≠ 0 := fun h => hne (List.length_eq_zero.mp h)
    have hpos : 0 < (logs.map (fun _ => 10 + ((p % 2 : ℕ) : ℚ))).length := by
      simp [List.length_map, List.length_pos]
      exact hne
    rw [if_pos hpos]
    simp only [List.length_map]
    rw [mul_comm, mul_div_assoc, div_self (Nat.cast_ne_zero.mpr hlen), mul_one]
  · intro row hnone
    constructor
    · simp [rowBaseStats, hnone]
    · simp [minuteContrib, hnone, rowBaseStats]
  · intro row ps hsome
    constructor
    · simp [rowBaseStats, hsome]
    · simp [minuteContrib, hsome]
  · simp [buildReportCore, List.length_insertionSort, List.length_map]
  · rfl

/-- Counterexample to claim C7 as stated: for a game whose period data
is unavailable, the reported average minutes is the parsed full-game
minutes string (30 or 20 here, tracking the input), not a synthesized
fixed small offset such as `10 + period % 2 = 11`. -/
theorem c7_counterexample :
    (buildReportCore [("pts", 10)] emptyPeriodDb (some 1) [samplePlayerRow]).avgMinutes = 30 ∧
    (buildReportCore [("pts", 10)] emptyPeriodDb (some 1) [samplePlayerRowB]).avgMinutes = 20 ∧
    (30 : ℚ) ≠ 10 + ((1 % 2 : ℕ) : ℚ) ∧ (30 : ℚ) ≠ (20 : ℚ) := by
  refine ⟨?_, ?_, by norm_num, by norm_num⟩
  · have hpm : parseMin "30:00" = some (30 + 0 / 60) := rfl
    have hmc : minuteContrib emptyPeriodDb (some 1) samplePlayerRow = some (30 + 0 / 60) := by
      simp [minuteContrib, rowPeriodStats, get_player_period_stats, emptyPeriodDb,
        samplePlayerRow, rowBaseStats, hpm]
    simp [buildReportCore, hmc]
  · have hpm : parseMin "20:00" = some (20 + 0 / 60) := rfl
    have hmc : minuteContrib emptyPeriodDb (some 1) samplePlayerRowB = some (20 + 0 / 60) := by
      simp [minuteContrib, rowPeriodStats, get_player_period_stats, emptyPeriodDb,
        samplePlayerRowB, rowBaseStats, hpm]
    simp [buildReportCore, hmc]

/-- Witness for C7's amended claim: with period data available for the
single game, the average minutes is the synthetic `10 + 2 % 2 = 10`
even though the true period minutes string is "10:30". -/
theorem c7_witness :
    (buildReportCore [("pts", 10)] fullPeriodDb (some 2) [samplePlayerRow]).avgMinutes =
      10 + ((2 % 2 : ℕ) : ℚ) :=
  (c7_period_substitution_and_minutes 2 fullPeriodDb [("pts", 10)] [samplePlayerRow]
    (by norm_num) (by norm_num) (by simp)
    (fun row hrow => ⟨7, ⟨5, 2, 1, 1, 0, 0, "10:30"⟩, by
      rcases List.mem_singleton.mp hrow with rfl
      exact ⟨rfl, rfl⟩⟩)).1

/-- The head-to-head sort is a permutation of its input. -/
theorem sortH2H_perm (l : List H2HRow) : (sortH2HByDateDesc l).Perm l :=
  List.perm_insertionSort _ l

/-- The head-to-head sort orders rows by date descending. -/
theorem sortH2H_sorted (l : List H2HRow) :
    List.Sorted (fun x y => y.gameDate ≤ x.gameDate) (sortH2HByDateDesc l) :=
  List.sorted_insertionSort _ l

/-- Claim C1 (amended): `get_last_h2h_games` performs no early stop -
every season of the lookback budget (down to the year-2000 floor, the
range underlying `h2hCollected`) contributes its matched games - and the
returned result is exactly the requested number (or fewer) of the most
recent collected games by date, sorted descending: it is sorted, drawn
from the collected rows, of length `min n total`, and every collected
row left out is no more recent than every returned row; an empty
collection yields `none`. -/
theorem c1_full_scan_top_n (home away : Team) (s : ℤ) (n back : ℕ) (db : TeamDb) :
    (h2hCollected home away s back db = [] →
      get_last_h2h_games home away s n back db = none) ∧
    (h2hCollected home away s back db ≠ [] →
      ∃ l, get_last_h2h_games home away s n back db = some l ∧
        l.length = min n (h2hCollected home away s back db).length ∧
        List.Sorted (fun x y => y.gameDate ≤ x.gameDate) l ∧
        l.Subperm (h2hCollected home away s back db) ∧
        (∀ x ∈ h2hCollected home away s back db, x ∉ l →
          ∀ y ∈ l, x.gameDate ≤ y.gameDate)) := by
  constructor
  · intro h
    simp [get_last_h2h_games, h]
  · intro h
    refine ⟨(sortH2HByDateDesc (h2hCollected home away s back db)).take n, ?_, ?_, ?_, ?_, ?_⟩
    · simp [get_last_h2h_games, h]
    · rw [List.length_take, (sortH2H_perm _).length_eq]
    · exact List.Pairwise.sublist (List.take_sublist _ _) (sortH2H_sorted _)
    · exact ((List.take_sublist _ _).subperm).trans (sortH2H_perm _).subperm
    · intro x hx hnx y hy
      have hxs : x ∈ sortH2HByDateDesc (h2hCollected home away s back db) :=
        (sortH2H_perm _).mem_iff.mpr hx
      have hsplit := List.take_append_drop n (sortH2HByDateDesc (h2hCollected home away s back db))
      rw [← hsplit] at hxs
      rcases List.mem_append.mp hxs with hxt | hxd
      · exact absurd hxt hnx
      · exact (sortH2H_sorted _).rel_of_mem_take_of_mem_drop hy hxd

/-- Witness for C1's amended claim on the concrete two-season database. -/
theorem c1_witness :
    (h2hCollected teamBos teamLal 2024 2 dbAnomalous ≠ []) ∧
    (∃ l, get_last_h2h_games teamBos teamLal 2024 1 2 dbAnomalous = some l ∧
      l.length = min 1 (h2hCollected teamBos teamLal 2024 2 dbAnomalous).length ∧
      List.Sorted (fun x y => y.gameDate ≤ x.gameDate) l ∧
      l.Subperm (h2hCollected teamBos teamLal 2024 2 dbAnomalous) ∧
      (∀ x ∈ h2hCollected teamBos teamLal 2024 2 dbAnomalous, x ∉ l →
        ∀ y ∈ l, x.gameDate ≤ y.gameDate)) :=
  ⟨by decide, (c1_full_scan_top_n teamBos teamLal 2024 1 2 dbAnomalous).2 (by decide)⟩

/-- Counterexample to claim C1 as stated: with a 2023-season game dated
after the 2024 one, the source (which always scans the full lookback
budget) returns the anomalous 2023 game, while the early-stopping search
described by the claim would have stopped after the requested count was
reached in the 2024 season and returned the 2024 game. -/
theorem c1_counterexample :
    get_last_h2h_games teamBos teamLal 2024 1 2 dbAnomalous =
      some [⟨200, "LAL", "BOS", 99, 120⟩] ∧
    h2hEarlyStopSpec teamBos teamLal 2024 1 2 dbAnomalous =
      some [⟨100, "BOS", "LAL", 110, 95⟩] ∧
    get_last_h2h_games teamBos teamLal 2024 1 2 dbAnomalous ≠
      h2hEarlyStopSpec teamBos teamLal 2024 1 2 dbAnomalous := by
  refine ⟨?_, ?_, ?_⟩ <;> decide

/-- Boolean equality tests are symmetric under a lawful instance. -/
theorem beq_symm_eq {α : Type} [BEq α] [LawfulBEq α] (x y : α) :
    (x == y) = (y == x) := by
  by_cases h : x = y
  · subst h
    rfl
  · have h1 : (x == y) = false := beq_eq_false_iff_ne.mpr h
    have h2 : (y == x) = false := beq_eq_false_iff_ne.mpr (Ne.symm h)
    rw [h1, h2]

/-- A flatMap of guarded singletons is a filtered map. -/
theorem flatMap_ite_singleton {α β : Type} (r : List α) (c : α → Bool) (x : α → β) :
    (r.flatMap (fun b => if c b then [x b] else [])) = (r.filter c).map x := by
  induction r with
  | nil => rfl
  | cons b r ih =>
    rw [List.flatMap_cons, List.filter_cons]
    by_cases h : c b = true <;> simp [h, ih]

/-- A flatMap of appended blocks is, up to permutation, the append of the
two flatMaps. -/
theorem flatMap_append_perm {α β : Type} (l : List α) (f g : α → List β) :
    (l.flatMap (fun b => f b ++ g b)).Perm (l.flatMap f ++ l.flatMap g) := by
  induction l with
  | nil => simp
  | cons b l ih =>
    simp only [List.flatMap_cons]
    refine (List.Perm.append_left (f b ++ g b) ih).trans ?_
    have hmid : (g b ++ (l.flatMap f ++ l.flatMap g)).Perm
        (l.flatMap f ++ (g b ++ l.flatMap g)) := by
      rw [← List.append_assoc, ← List.append_assoc]
      exact List.Perm.append_right _ List.perm_append_comm
    rw [List.append_assoc, List.append_assoc]
    exact List.Perm.append_left _ hmid

/-- The inner merge against an empty left log is empty. -/
theorem joinLogs_nil_right (r : List LogRow) : joinLogs r [] = [] := by
  induction r with
  | nil => rfl
  | cons b r ih => simpa [joinLogs, List.flatMap_cons] using ih

/-- Splitting the inner merge along the head of its right argument. -/
theorem joinLogs_cons_right (r : List LogRow) (a : LogRow) (l : List LogRow) :
    (joinLogs r (a :: l)).Perm
      (((r.filter (fun b => a.gameId == b.gameId && a.gameDate == b.gameDate)).map
        (fun b => (b, a))) ++ joinLogs r l) := by
  have hpt : (fun b => (((a :: l).filter
        (fun c => c.gameId == b.gameId && c.gameDate == b.gameDate)).map
          (fun c => ((b, c) : LogRow × LogRow)))) =
      (fun b => ((if a.gameId == b.gameId && a.gameDate == b.gameDate then
          [((b, a) : LogRow × LogRow)] else []) ++
        ((l.filter (fun c => c.gameId == b.gameId && c.gameDate == b.gameDate)).map
          (fun c => (b, c))))) := by
    funext b
    rw [List.filter_cons]
    by_cases h : (a.gameId == b.gameId && a.gameDate == b.gameDate) = true
    · rw [if_pos h, if_pos h, List.map_cons]
      rfl
    · rw [if_neg h, if_neg h]
      rfl
  show (r.flatMap (fun b => (((a :: l).filter
      (fun c => c.gameId == b.gameId && c.gameDate == b.gameDate)).map
        (fun c => (b, c))))).Perm _
  rw [hpt]
  refine (flatMap_append_perm r _ _).trans ?_
  rw [flatMap_ite_singleton]
  exact List.Perm.refl _

/-- The inner merge of two logs is, up to permutation, the flipped inner
merge of the logs in the other order. -/
theorem joinLogs_swap_perm (l r : List LogRow) :
    (joinLogs l r).Perm ((joinLogs r l).map Prod.swap) := by
  induction l with
  | nil => simp [joinLogs, joinLogs_nil_right]
  | cons a l ih =>
    have hsplit : joinLogs (a :: l) r =
        ((r.filter (fun b => b.gameId == a.gameId && b.gameDate == a.gameDate)).map
          (fun b => (a, b))) ++ joinLogs l r := by
      simp [joinLogs]
    have hblock : ((r.filter (fun b => b.gameId == a.gameId && b.gameDate == a.gameDate)).map
          (fun b => ((a, b) : LogRow × LogRow))) =
        ((r.filter (fun b => a.gameId == b.gameId && a.gameDate == b.gameDate)).map
          (fun b => ((b, a) : LogRow × LogRow))).map Prod.swap := by
      rw [List.map_map]
      refine congrArg _ ?_
      refine List.filter_congr ?_
      intro c _
      rw [beq_symm_eq a.gameId c.gameId, beq_symm_eq a.gameDate c.gameDate]
    rw [hsplit, hblock]
    refine (List.Perm.append_left _ ih).trans ?_
    rw [← List.map_append]
    exact List.Perm.map Prod.swap (joinLogs_cons_right r a l).symm

/-- Membership in the inner merge decomposes into memberships and the
join keys. -/
theorem mem_joinLogs {l r : List LogRow} {x : LogRow × LogRow}
    (hx : x ∈ joinLogs l r) :
    x.1 ∈ l ∧ x.2 ∈ r ∧ x.2.gameId = x.1.gameId ∧ x.2.gameDate = x.1.gameDate := by
  simp only [joinLogs, List.mem_flatMap, List.mem_map] at hx
  obtain ⟨a, ha, b, hb, hxb⟩ := hx
  have hb2 := List.mem_filter.mp hb
  simp only [Bool.and_eq_true, beq_iff_eq] at hb2
  subst hxb
  exact ⟨ha, hb2.1, hb2.2.1, hb2.2.2⟩

/-- A flatMap is invariant, up to permutation, under pointwise
permutation of its blocks. -/
theorem flatMap_perm_congr {α β : Type} (ys : List α) (f g : α → List β)
    (h : ∀ y ∈ ys, (f y).Perm (g y)) : (ys.flatMap f).Perm (ys.flatMap g) := by
  induction ys with
  | nil => exact List.Perm.refl _
  | cons y ys ih =>
    rw [List.flatMap_cons, List.flatMap_cons]
    exact (h y (List.mem_cons_self y ys)).append
      (ih (fun z hz => h z (List.mem_cons_of_mem y hz)))

/-- Orientation from the other team's log row agrees with orientation
from this team's log row, when the two rows record the fixture
consistently (exactly one of them is the home side). -/
theorem orient_swap_consistent (A B : Team) (pr : LogRow × LogRow)
    (hdate : pr.2.gameDate = pr.1.gameDate)
    (hcons : (strContains pr.1.matchup "vs" = true ∧ strContains pr.2.matchup "vs" = false ∧
        strContains pr.2.matchup "@" = true) ∨
      (strContains pr.1.matchup "vs" = false ∧ strContains pr.1.matchup "@" = true ∧
        strContains pr.2.matchup "vs" = true)) :
    orientRow B.abbreviation A.abbreviation pr.swap =
      orientRow A.abbreviation B.abbreviation pr := by
  rcases pr with ⟨a, b⟩
  simp only [Prod.fst, Prod.snd] at hdate
  rcases hcons with ⟨h1, h2, h3⟩ | ⟨h1, h2, h3⟩ <;>
    simp [orientRow, Prod.swap, h1, h2, h3, hdate]

/-- One season's oriented head-to-head rows are invariant, up to
permutation, under swapping the two teams, when the database records the
paired fixtures consistently. -/
theorem h2hSeasonRows_swap (A B : Team) (db : TeamDb) (y : ℤ)
    (hcons : ∀ a ∈ db A.id y, ∀ b ∈ db B.id y,
      a.gameId = b.gameId → a.gameDate = b.gameDate →
      ((strContains a.matchup "vs" = true ∧ strContains b.matchup "vs" = false ∧
          strContains b.matchup "@" = true) ∨
        (strContains a.matchup "vs" = false ∧ strContains a.matchup "@" = true ∧
          strContains b.matchup "vs" = true))) :
    (h2hSeasonRows B A db y).Perm (h2hSeasonRows A B db y) := by
  simp only [h2hSeasonRows]
  refine ((joinLogs_swap_perm _ _).map _).trans ?_
  rw [List.map_map]
  have hpt : ∀ pr ∈ joinLogs
      ((get_team_season_games db A.id y).filter
        (fun r => strContains r.matchup B.abbreviation))
      ((get_team_season_games db B.id y).filter
        (fun r => strContains r.matchup A.abbreviation)),
      (orientRow B.abbreviation A.abbreviation ∘ Prod.swap) pr =
        orientRow A.abbreviation B.abbreviation pr := by
    intro pr hpr
    obtain ⟨h1, h2, hid, hdate⟩ := mem_joinLogs hpr
    have ha : pr.1 ∈ db A.id y := by
      have := (List.mem_filter.mp h1).1
      simpa [get_team_season_games] using
        (List.perm_insertionSort (fun x y : LogRow => y.gameDate ≤ x.gameDate) _).mem_iff.mp this
    have hb : pr.2 ∈ db B.id y := by
      have := (List.mem_filter.mp h2).1
      simpa [get_team_season_games] using
        (List.perm_insertionSort (fun x y : LogRow => y.gameDate ≤ x.gameDate) _).mem_iff.mp this
    exact orient_swap_consistent A B pr hdate (hcons pr.1 ha pr.2 hb hid.symm hdate.symm)
  rw [List.map_congr_left hpt]

/-- All collected rows are invariant, up to permutation, under swapping
the two teams. -/
theorem h2hCollected_swap (A B : Team) (s : ℤ) (back : ℕ) (db : TeamDb)
    (hcons : ∀ y ∈ seasonsScanned s back, ∀ a ∈ db A.id y, ∀ b ∈ db B.id y,
      a.gameId = b.gameId → a.gameDate = b.gameDate →
      ((strContains a.matchup "vs" = true ∧ strContains b.matchup "vs" = false ∧
          strContains b.matchup "@" = true) ∨
        (strContains a.matchup "vs" = false ∧ strContains a.matchup "@" = true ∧
          strContains b.matchup "vs" = true))) :
    (h2hCollected B A s back db).Perm (h2hCollected A B s back db) :=
  flatMap_perm_congr _ _ _ (fun y hy => h2hSeasonRows_swap A B db y (hcons y hy))

/-- Sorting by date descending is injective on permutation classes with
pairwise distinct dates. -/
theorem sortH2H_eq_of_perm (l₁ l₂ : List H2HRow) (hp : l₁.Perm l₂)
    (hnd : (l₁.map H2HRow.gameDate).Nodup) :
    sortH2HByDateDesc l₁ = sortH2HByDateDesc l₂ := by
  have hperm : (sortH2HByDateDesc l₁).Perm (sortH2HByDateDesc l₂) :=
    ((sortH2H_perm l₁).trans hp).trans (sortH2H_perm l₂).symm
  have hnd1 : ((sortH2HByDateDesc l₁).map H2HRow.gameDate).Nodup :=
    ((sortH2H_perm l₁).map H2HRow.gameDate).nodup_iff.mpr hnd
  have hnd2 : ((sortH2HByDateDesc l₂).map H2HRow.gameDate).Nodup :=
    (hperm.map H2HRow.gameDate).nodup_iff.mp hnd1
  have hs1 : List.Sorted (fun x y => y.gameDate < x.gameDate) (sortH2HByDateDesc l₁) := by
    have hne := List.pairwise_map.mp hnd1
    exact ((sortH2H_sorted l₁).and hne).imp
      (fun h => lt_of_le_of_ne h.1 (Ne.symm h.2))
  have hs2 : List.Sorted (fun x y => y.gameDate < x.gameDate) (sortH2HByDateDesc l₂) := by
    have hne := List.pairwise_map.mp hnd2
    exact ((sortH2H_sorted l₂).and hne).imp
      (fun h => lt_of_le_of_ne h.1 (Ne.symm h.2))
  exact List.eq_of_perm_of_sorted hperm hs1 hs2

/-- Claim C6: the head-to-head result is invariant under swapping the two
query teams - game by game the home/away attribution and both point
totals come out identical, because each joined row is oriented from the
matchup notation rather than from which team's log it came from.  The
hypotheses say the database records each paired fixture consistently
(exactly one side notes "vs", the other "@") and that the collected games
carry pairwise distinct dates. -/
theorem c6_h2h_swap_invariant (A B : Team) (s : ℤ) (n back : ℕ) (db : TeamDb)
    (hcons : ∀ y ∈ seasonsScanned s back, ∀ a ∈ db A.id y, ∀ b ∈ db B.id y,
      a.gameId = b.gameId → a.gameDate = b.gameDate →
      ((strContains a.matchup "vs" = true ∧ strContains b.matchup "vs" = false ∧
          strContains b.matchup "@" = true) ∨
        (strContains a.matchup "vs" = false ∧ strContains a.matchup "@" = true ∧
          strContains b.matchup "vs" = true)))
    (hnd : ((h2hCollected A B s back db).map H2HRow.gameDate).Nodup) :
    get_last_h2h_games A B s n back db = get_last_h2h_games B A s n back db ∧
    (∀ l₁ l₂, get_last_h2h_games A B s n back db = some l₁ →
      get_last_h2h_games B A s n back db = some l₂ →
      l₁.map (fun g => g.ptsHome + g.ptsAway) = l₂.map (fun g => g.ptsHome + g.ptsAway)) := by
  have hperm := h2hCollected_swap A B s back db hcons
  have hmain : get_last_h2h_games A B s n back db = get_last_h2h_games B A s n back db := by
    unfold get_last_h2h_games
    by_cases hAB : h2hCollected A B s back db = []
    · have hBA : h2hCollected B A s back db = [] := by
        rw [hAB] at hperm
        exact hperm.eq_nil
      rw [if_pos hAB, if_pos hBA]
    · have hBA : h2hCollected B A s back db ≠ [] := by
        intro h0
        rw [h0] at hperm
        exact hAB (hperm.symm.eq_nil)
      rw [if_neg hAB, if_neg hBA,
        sortH2H_eq_of_perm _ _ hperm.symm hnd]
  exact ⟨hmain, fun l₁ l₂ h1 h2 => by
    rw [hmain] at h1
    rw [h1] at h2
    rw [Option.some.injEq] at h2
    rw [h2]⟩

/-- Witness for C6 on the concrete consistently recorded database. -/
theorem c6_witness :
    get_last_h2h_games teamBos teamLal 2024 6 1 dbSymmetric =
      get_last_h2h_games teamLal teamBos 2024 6 1 dbSymmetric :=
  (c6_h2h_swap_invariant teamBos teamLal 2024 6 1 dbSymmetric
    (by decide) (by decide)).1
